import Mathlib

/-!
Verification of the core of the Premier League simulator (Go sources
`main.go`, `database.go`) against its natural-language specification.

Shallow embedding conventions:
* Go `int` fields are modelled by `Int` (values stay far from 2^63, so
  overflow is irrelevant to every property considered here).
* Go `float64` arithmetic is modelled by exact rationals `ℚ`; `int(x)`
  conversion is truncation toward zero (`trunc`).
* A Go pointer `*Team` stored in a `Match` is modelled by the index of the
  team in the league's team slice.
* Go slices are modelled by lists (with capacity = length, so a slice
  expression `s[:4]` is in range exactly when the length is at least 4).
* The process-wide `math/rand` source is modelled by an abstract
  deterministic generator `Rng` (its internals are not part of this
  repository); `rand.Seed`/`rand.Float64`/`rand.Intn` are `seedRng`,
  `randFloat`, `randIntn`.  `time.Now().UnixNano()` is modelled by a clock
  stream `clk : Nat → Nat` together with a counter of clock reads.
-/

set_option maxHeartbeats 1000000

/-- Go struct `Team` (main.go): stats, strengths and the recent-form window. -/
structure Team where
  Name : String
  Played : Int := 0
  Won : Int := 0
  Drawn : Int := 0
  Lost : Int := 0
  GoalsFor : Int := 0
  GoalsAgainst : Int := 0
  GoalDifference : Int := 0
  Points : Int := 0
  BaseStrength : Int := 0
  CurrentStrength : Int := 0
  Form : List String := []
deriving Repr, DecidableEq, Inhabited

/-- Go struct `Match` (main.go).  `HomeTeam`/`AwayTeam` are `*Team` pointers in
Go; here they are indices into the league's team list. -/
structure Match where
  HomeTeam : Nat
  AwayTeam : Nat
  HomeGoals : Int := 0
  AwayGoals : Int := 0
  IsPlayed : Bool := false
  IsFixed : Bool := false
  Week : Nat := 0
deriving Repr, DecidableEq, Inhabited

/-- Go struct `League` (main.go).  `Week` is a Go `int` that is only ever 0 or
incremented, so it is modelled by `Nat`. -/
structure League where
  Teams : List Team
  Week : Nat
  Fixtures : List (List Match)
deriving Repr, DecidableEq, Inhabited

/-- Go conversion `int(x)` on a `float64`: truncation toward zero. -/
def trunc (q : ℚ) : Int :=
  if 0 ≤ q.num then q.num / (q.den : Int) else -(-q.num / (q.den : Int))

/-- The form multiplier computed by `updateTeamStrength` (main.go):
start from 1.0 and for each form entry at index `i` add `+0.05·(5-i)/15` for a
win, `-0.05·(5-i)/15` for a loss, nothing otherwise. -/
def formMultiplier (form : List String) : ℚ :=
  form.enum.foldl
    (fun m p =>
      let weight : ℚ := ((5 : ℚ) - (p.1 : ℚ)) / 15
      if p.2 = "W" then m + 5 / 100 * weight
      else if p.2 = "D" then m
      else if p.2 = "L" then m - 5 / 100 * weight
      else m)
    1

/-- Go `(t *Team) updateTeamStrength` (main.go): recompute `CurrentStrength`
from `BaseStrength` and the form window, clamped to ±15% (integer-truncated
bounds). -/
def Team.updateTeamStrength (t : Team) : Team :=
  let cs := trunc ((t.BaseStrength : ℚ) * formMultiplier t.Form)
  let minStrength := trunc ((t.BaseStrength : ℚ) * (85 / 100))
  let maxStrength := trunc ((t.BaseStrength : ℚ) * (115 / 100))
  { t with CurrentStrength :=
      if cs < minStrength then minStrength
      else if cs > maxStrength then maxStrength
      else cs }

/-- Go `(t *Team) UpdateTeamStats` (main.go): apply one match result.  The Go
code prepends the result code to the first four entries of the form slice;
the slice expression `t.Form[:4]` is `t.Form.take 4` here (in range iff the
form has at least 4 entries, see `Team.UpdateTeamStatsChecked`). -/
def Team.UpdateTeamStats (t : Team) (goalsFor goalsAgainst : Int) : Team :=
  let t := { t with GoalsFor := t.GoalsFor + goalsFor,
                    GoalsAgainst := t.GoalsAgainst + goalsAgainst }
  let t := { t with GoalDifference := t.GoalsFor - t.GoalsAgainst }
  let t :=
    if goalsFor > goalsAgainst then
      { t with Won := t.Won + 1, Points := t.Points + 3,
               Form := "W" :: t.Form.take 4 }
    else if goalsFor = goalsAgainst then
      { t with Drawn := t.Drawn + 1, Points := t.Points + 1,
               Form := "D" :: t.Form.take 4 }
    else
      { t with Lost := t.Lost + 1, Form := "L" :: t.Form.take 4 }
  let t := { t with Played := t.Won + t.Drawn + t.Lost }
  t.updateTeamStrength

/-- `Team.UpdateTeamStats` with the bounds check of the Go slice expression
`t.Form[:4]` made explicit: in the list model (capacity = length) the slice is
out of range, i.e. the Go code panics, exactly when the form has fewer than 4
entries. -/
def Team.UpdateTeamStatsChecked (t : Team) (goalsFor goalsAgainst : Int) :
    Option Team :=
  if 4 ≤ t.Form.length then some (t.UpdateTeamStats goalsFor goalsAgainst)
  else none

/-- Go `(t *Team) ReverseTeamStats` (main.go). -/
def Team.ReverseTeamStats (t : Team) (goalsFor goalsAgainst : Int) : Team :=
  let t := { t with GoalsFor := t.GoalsFor - goalsFor,
                    GoalsAgainst := t.GoalsAgainst - goalsAgainst }
  let t := { t with GoalDifference := t.GoalsFor - t.GoalsAgainst }
  let t :=
    if goalsFor > goalsAgainst then
      { t with Won := t.Won - 1, Points := t.Points - 3 }
    else if goalsFor = goalsAgainst then
      { t with Drawn := t.Drawn - 1, Points := t.Points - 1 }
    else
      { t with Lost := t.Lost - 1 }
  { t with Played := t.Won + t.Drawn + t.Lost }

/-- Go `(t *Team) ResetTeamStats` (main.go): zero the cumulative counters,
leaving `Form`, `BaseStrength` and `CurrentStrength` untouched. -/
def Team.ResetTeamStats (t : Team) : Team :=
  { t with Played := 0, Won := 0, Drawn := 0, Lost := 0,
           GoalsFor := 0, GoalsAgainst := 0, GoalDifference := 0, Points := 0 }

/-- Go `parseFormString` (database.go): turn a serialized form string into a
5-entry slice, writing characters only at indices below 5. -/
def parseFormString (formStr : String) : List String :=
  if formStr = "" then List.replicate 5 ""
  else
    formStr.toList.enum.foldl
      (fun form p =>
        if p.1 < 5 then form.set p.1 (String.mk [p.2]) else form)
      (List.replicate 5 "")

/-- The form slice built by `NewLeague` (main.go): `make([]string, 5)` with the
characters of the team's form string written in.  All mock teams carry the
empty form string, so the write loop (which would panic past index 4) is
modelled by the in-range writes only. -/
def formOfString (s : String) : List String :=
  s.toList.enum.foldl
    (fun form p => form.set p.1 (String.mk [p.2]))
    (List.replicate 5 "")

section Sampler

/-- Abstract model of the process-wide `math/rand` source.  The generator's
internals are not part of this repository; any deterministic generator is a
faithful model of the injected source. -/
structure Rng where
  state : Nat
deriving Repr, DecidableEq, Inhabited

/-- Model of `rand.Seed(n)`. -/
def seedRng (n : Nat) : Rng := ⟨n % 2 ^ 64⟩

/-- One step of the model generator. -/
def rngNext (g : Rng) : Nat × Rng :=
  let s := (g.state * 75 + 74) % 65537
  (s, ⟨s⟩)

/-- Model of `rand.Float64()`: a uniform value in `[0, 1)`. -/
def randFloat (g : Rng) : ℚ × Rng :=
  let p := rngNext g
  ((p.1 : ℚ) / 65537, p.2)

/-- Model of `rand.Intn(n)` (every call site has `n ≥ 1`). -/
def randIntn (n : Nat) (g : Rng) : Nat × Rng :=
  let p := rngNext g
  (p.1 % n, p.2)

/-- Go `predictMatchResult` (main.go).  Note the Go body executes
`rand.Seed(time.Now().UnixNano())` before drawing, so the incoming generator
state `g` is overwritten by the clock reading `clock`. -/
def predictMatchResult (team1 team2 : Team) (clock : Nat) (g : Rng) :
    (Int × Int) × Rng :=
  let totalStrength := team1.CurrentStrength + team2.CurrentStrength
  let team1Prob : ℚ := (team1.CurrentStrength : ℚ) / (totalStrength : ℚ)
  let g := seedRng clock
  let pr := randFloat g
  let r := pr.1
  let g := pr.2
  if r < team1Prob then
    let pa := randIntn 3 g
    let team1Goals : Int := (pa.1 : Int) + 1
    let pb := randIntn (pa.1 + 1) pa.2
    ((team1Goals, (pb.1 : Int)), pb.2)
  else if r < team1Prob + 2 / 10 then
    let pa := randIntn 2 g
    (((pa.1 : Int), (pa.1 : Int)), pa.2)
  else
    let pa := randIntn 3 g
    let team2Goals : Int := (pa.1 : Int) + 1
    let pb := randIntn (pa.1 + 1) pa.2
    (((pb.1 : Int), team2Goals), pb.2)

/-- The process state threaded through simulation code: the global `math/rand`
source together with the number of clock reads performed so far. -/
abbrev RandState := Rng × Nat

/-- One sampler call as performed by the simulation loops: read the clock,
then run `predictMatchResult`. -/
def sampleMatch (clk : Nat → Nat) (st : RandState) (t1 t2 : Team) :
    (Int × Int) × RandState :=
  let r := predictMatchResult t1 t2 (clk st.2) st.1
  (r.1, (r.2, st.2 + 1))

end Sampler

section Fixtures

/-- The index rotation at the end of each round of `generateFixtures`
(main.go): keep position 0 fixed, shift the rest left, move the old second
element to the back. -/
def rotateIdx : List Nat → List Nat
  | a :: b :: rest => a :: rest ++ [b]
  | l => l

/-- One round of `generateFixtures`: pair position `i` with position
`numTeams-1-i`; in the second half the home/away assignment is swapped. -/
def roundMatches (idx : List Nat) (half : Nat) : List Match :=
  (List.range (idx.length / 2)).map fun i =>
    let home := idx.getD i 0
    let away := idx.getD (idx.length - 1 - i) 0
    let ha := if half = 1 then (away, home) else (home, away)
    { HomeTeam := ha.1, AwayTeam := ha.2 }

/-- Go `(l *League) generateFixtures` (main.go) for the fixed team count 4
(the function panics on any other count): repeat the double round-robin three
times; each half resets the index list and runs `numTeams - 1 = 3` rounds of
`numTeams / 2 = 2` matches.  Matches reference teams by index; all other match
fields are left at their zero values. -/
def generateFixtures : List (List Match) :=
  (List.range 3).foldl
    (fun allWeeks _ =>
      (List.range 2).foldl
        (fun allWeeks half =>
          ((List.range 3).foldl
            (fun (p : List (List Match) × List Nat) _ =>
              (p.1 ++ [roundMatches p.2 half], rotateIdx p.2))
            (allWeeks, [0, 1, 2, 3])).1)
        allWeeks)
    []

/-- The week-numbering loop run by the GUI callers right after generating
fixtures (`simulateNextWeek`, `simulateAllRemainingWeeks` in main.go):
set each match's `Week` field to its 1-based week index. -/
def assignWeeks (fixtures : List (List Match)) : List (List Match) :=
  fixtures.mapIdx fun week wk => wk.map fun m => { m with Week := week + 1 }

end Fixtures

section Standings

/-- The comparison closure passed to `sort.Slice` by `refreshDisplay` and
`PrintLeagueTable` (main.go): points descending, then goal difference
descending. -/
def lessTeam (a b : Team) : Bool :=
  if a.Points ≠ b.Points then a.Points > b.Points
  else a.GoalDifference > b.GoalDifference

/-- The order guaranteed by `sort.Slice` with comparator `lessTeam`: a list is
a possible output exactly when no later element is `lessTeam` an earlier one. -/
def sortRel (a b : Team) : Prop := ¬ lessTeam b a = true

instance : DecidableRel sortRel := fun a b => by
  unfold sortRel; infer_instance

/-- Deterministic model of Go's (unstable, otherwise unspecified)
`sort.Slice`: an insertion sort with the source comparator.  Go guarantees
only that the output is a permutation of the input that is sorted for the
comparator; `List.insertionSort` returns one such output. -/
def sortTeams (ts : List Team) : List Team := List.insertionSort sortRel ts

end Standings

section AssocMap

/-- Go `map[string]V` lookup with the zero value as default. -/
def alGet {α : Type} (m : List (String × α)) (k : String) (d : α) : α :=
  match m with
  | [] => d
  | p :: rest => if p.1 = k then p.2 else alGet rest k d

/-- Go `map[string]V` write: replace the entry if the key is present,
otherwise add it. -/
def alSet {α : Type} (m : List (String × α)) (k : String) (v : α) :
    List (String × α) :=
  match m with
  | [] => [(k, v)]
  | p :: rest => if p.1 = k then (k, v) :: rest else p :: alSet rest k v

/-- A loop `for _, t := range ts` writing `f t` under key `t.Name`. -/
def buildMap {α : Type} (f : Team → α) (ts : List Team)
    (m : List (String × α)) : List (String × α) :=
  ts.foldl (fun acc t => alSet acc t.Name (f t)) m

/-- The sum of all values of a map (the total credit in a counts map). -/
def mapSum (m : List (String × ℚ)) : ℚ := (m.map Prod.snd).sum

end AssocMap

section Replay

/-- Mutation through a `*Team` pointer, pointer = index: update the team at
index `i` in place (indices are always in range in the program; an
out-of-range index leaves the list unchanged). -/
def applyAt {α : Type} (ts : List α) (i : Nat) (f : α → α) : List α :=
  match ts[i]? with
  | some t => ts.set i (f t)
  | none => ts

/-- The body of the match loop of `recalculateAllStats` (main.go): if the
match is played or fixed, apply the recorded score to both participants. -/
def playMatchOn (ts : List Team) (m : Match) : List Team :=
  if m.IsPlayed || m.IsFixed then
    let ts := applyAt ts m.HomeTeam fun t => t.UpdateTeamStats m.HomeGoals m.AwayGoals
    applyAt ts m.AwayTeam fun t => t.UpdateTeamStats m.AwayGoals m.HomeGoals
  else ts

/-- Replay a sequence of weeks over a team list. -/
def replayWeeks (weeks : List (List Match)) (ts : List Team) : List Team :=
  weeks.foldl (fun ts wk => wk.foldl playMatchOn ts) ts

/-- Go `(g *GUI) recalculateAllStats` (main.go): reset every team's stats,
then re-apply, in fixture order, every played-or-fixed match of the weeks
before the league's week counter (the Go loop runs `week` from 0 while
`week < l.Week`, breaking at the fixture-list length, i.e. over
`Fixtures.take Week`). -/
def League.recalculateAllStats (l : League) : League :=
  { l with Teams :=
      replayWeeks (l.Fixtures.take l.Week) (l.Teams.map Team.ResetTeamStats) }

/-- The cumulative-counter fields of a team: exactly the fields zeroed by
`ResetTeamStats` and rebuilt by the standings replay. -/
structure TeamStats where
  Played : Int
  Won : Int
  Drawn : Int
  Lost : Int
  GoalsFor : Int
  GoalsAgainst : Int
  GoalDifference : Int
  Points : Int
deriving Repr, DecidableEq

/-- Projection of a team onto its cumulative counters. -/
def Team.stats (t : Team) : TeamStats :=
  ⟨t.Played, t.Won, t.Drawn, t.Lost, t.GoalsFor, t.GoalsAgainst,
   t.GoalDifference, t.Points⟩

end Replay

section Probabilities

/-- The map `maxPoints` computed by `ChampionshipProbabilities` (main.go):
for each team, `points + 3·(18 − played)`. -/
def League.maxPointsMap (l : League) : List (String × Int) :=
  buildMap (fun t => t.Points + (18 - t.Played) * 3) l.Teams []

/-- The map `currentPoints` computed by `ChampionshipProbabilities`. -/
def League.currentPointsMap (l : League) : List (String × Int) :=
  buildMap (fun t => t.Points) l.Teams []

/-- The `leaderUnreachable` flag of `ChampionshipProbabilities` (main.go):
take `leader := l.Teams[0]` (the comment there assumes the slice is sorted by
points) and clear the flag as soon as some other team's maximum achievable
points reach the leader's current points. -/
def leaderUnreachableB (l : League) : Bool :=
  match l.Teams with
  | [] => true
  | leader :: rest =>
    rest.all fun t =>
      !(decide (alGet l.currentPointsMap leader.Name 0 ≤
                alGet l.maxPointsMap t.Name 0))

/-- The running maximum of points (`maxPoints` local, initialized to -1). -/
def maxPointsOf (ts : List Team) : Int :=
  ts.foldl (fun m t => if t.Points > m then t.Points else m) (-1)

/-- The champion-collection loop shared by the season-complete branch and the
Monte Carlo trials: among teams with maximal points, collect the names with
maximal goal difference (`maxGoalDiff` initialized to -999). -/
def championsOf (ts : List Team) (mp : Int) : List String × Int :=
  ts.foldl
    (fun acc t =>
      if t.Points = mp then
        if t.GoalDifference > acc.2 then ([t.Name], t.GoalDifference)
        else if t.GoalDifference = acc.2 then (acc.1 ++ [t.Name], acc.2)
        else acc
      else acc)
    ([], -999)

/-- The season-complete branch (`l.Week > 18`) of
`ChampionshipProbabilities`: split 100% among the champions, then give every
team whose entry still reads 0 an explicit 0% entry. -/
def completedCounts (ts : List Team) : List (String × ℚ) :=
  let champs := (championsOf ts (maxPointsOf ts)).1
  let counts := champs.foldl
    (fun c name => alSet c name (100 / (champs.length : ℚ))) []
  ts.foldl
    (fun c t => if alGet c t.Name 0 = 0 then alSet c t.Name 0 else c)
    counts

/-- The mathematical-certainty branch: 100% for the team at index 0, 0% for
every other name. -/
def certaintyCounts (ts : List Team) (leader : Team) : List (String × ℚ) :=
  buildMap (fun t => if t.Name = leader.Name then (100 : ℚ) else 0) ts []

/-- The cold-start branch (`l.Week == 0`): percentage proportional to base
strength. -/
def coldStartCounts (ts : List Team) : List (String × ℚ) :=
  let totalStrength : Int := ts.foldl (fun s t => s + t.BaseStrength) 0
  buildMap (fun t => (t.BaseStrength : ℚ) / (totalStrength : ℚ) * 100) ts []

/-- The deep copy of a team taken at the start of every Monte Carlo trial
(all fields are copied; the form slice is copied into a fresh backing array,
which in the list model is the list value itself). -/
def copyTeam (t : Team) : Team :=
  { Name := t.Name, Played := t.Played, Won := t.Won, Drawn := t.Drawn,
    Lost := t.Lost, GoalsFor := t.GoalsFor, GoalsAgainst := t.GoalsAgainst,
    GoalDifference := t.GoalDifference, Points := t.Points,
    BaseStrength := t.BaseStrength, CurrentStrength := t.CurrentStrength,
    Form := t.Form }

/-- The last index of a team with the given name (the Go lookup loop keeps
overwriting its variable, so the last hit wins), `none` when absent. -/
def findLastIdx (ts : List Team) (name : String) : Option Nat :=
  ts.enum.foldl (fun acc p => if p.2.Name = name then some p.1 else acc) none

/-- One match inside a Monte Carlo trial: resolve both participants in the
trial's team copies by name (skipping the match when either is missing),
sample a result, and apply it to the copies — first the home side, then the
away side. -/
def trialPlayMatch (live : List Team) (clk : Nat → Nat)
    (acc : List Team × RandState) (m : Match) : List Team × RandState :=
  let teamsCopy := acc.1
  let st := acc.2
  let homeName := (live.getD m.HomeTeam default).Name
  let awayName := (live.getD m.AwayTeam default).Name
  match findLastIdx teamsCopy homeName, findLastIdx teamsCopy awayName with
  | some hi, some ai =>
    let home := teamsCopy.getD hi default
    let away := teamsCopy.getD ai default
    let r := sampleMatch clk st home away
    let hg := r.1.1
    let ag := r.1.2
    let teamsCopy := applyAt teamsCopy hi fun t => t.UpdateTeamStats hg ag
    let teamsCopy := applyAt teamsCopy ai fun t => t.UpdateTeamStats ag hg
    (teamsCopy, r.2)
  | _, _ => (teamsCopy, st)

/-- One Monte Carlo trial: deep-copy every team, then replay every remaining
scheduled week (`w` from `l.Week - 1` to the end of the fixture list) on the
copies. -/
def runTrial (l : League) (clk : Nat → Nat) (st : RandState) :
    List Team × RandState :=
  let teamsCopy := l.Teams.map copyTeam
  (l.Fixtures.drop (l.Week - 1)).foldl
    (fun acc wk => wk.foldl (trialPlayMatch l.Teams clk) acc)
    (teamsCopy, st)

/-- The credit distribution of one valid trial: each tied champion's entry
gains `1 / number-of-champions`. -/
def creditChampions (counts : List (String × ℚ)) (champs : List String) :
    List (String × ℚ) :=
  champs.foldl
    (fun c name => alSet c name (alGet c name 0 + 1 / (champs.length : ℚ)))
    counts

/-- One iteration of the Monte Carlo loop: run a trial, determine its
champions, and either discard it (no champion) or credit the champions and
count it as valid.  The accumulator is (counts, validSimulations, rand state). -/
def mcStep (l : League) (clk : Nat → Nat)
    (acc : List (String × ℚ) × Nat × RandState) (_ : Nat) :
    List (String × ℚ) × Nat × RandState :=
  let r := runTrial l clk acc.2.2
  let teamsCopy := r.1
  let champs := (championsOf teamsCopy (maxPointsOf teamsCopy)).1
  if champs = [] then (acc.1, acc.2.1, r.2)
  else (creditChampions acc.1 champs, acc.2.1 + 1, r.2)

/-- The full Monte Carlo loop of `ChampionshipProbabilities`: `simulations`
independent trials starting from empty counts and zero valid trials. -/
def monteCarloRun (l : League) (simulations : Nat) (clk : Nat → Nat)
    (st : RandState) : List (String × ℚ) × Nat × RandState :=
  (List.range simulations).foldl (mcStep l clk) ([], 0, st)

/-- The final normalization of `ChampionshipProbabilities`: percentages over
the valid trials, or an explicit 0% for every team when no trial was valid. -/
def normalizeCounts (l : League) (counts : List (String × ℚ)) (valid : Nat) :
    List (String × ℚ) :=
  if valid > 0 then counts.map fun p => (p.1, p.2 / (valid : ℚ) * 100)
  else buildMap (fun _ => (0 : ℚ)) l.Teams counts

/-- Go `(l *League) ChampionshipProbabilities` (main.go).  The league is
threaded through and returned so that the (absence of) mutation of the live
season state is part of the function's meaning; the Go body never writes to
`l.Teams` or `l.Fixtures`, so every branch returns `l` unchanged. -/
def League.ChampionshipProbabilities (l : League) (simulations : Nat)
    (clk : Nat → Nat) (st : RandState) :
    List (String × ℚ) × League × RandState :=
  match l.Teams with
  | [] => ([], l, st)
  | leader :: rest =>
    if 18 < l.Week then (completedCounts (leader :: rest), l, st)
    else if leaderUnreachableB l then
      (certaintyCounts (leader :: rest) leader, l, st)
    else if l.Week = 0 then (coldStartCounts (leader :: rest), l, st)
    else
      let r := monteCarloRun l simulations clk st
      (normalizeCounts l r.1 r.2.1, l, r.2.2)

end Probabilities

/-! ### Helper lemmas -/

/-- `trunc` agrees with the floor on nonnegative rationals. -/
theorem trunc_eq_floor {q : ℚ} (h : 0 ≤ q) : trunc q = ⌊q⌋ := by
  rw [Rat.floor_def]
  simp [trunc, Rat.num_nonneg.2 h]

/-- `trunc` is monotone on nonnegative rationals. -/
theorem trunc_le_trunc {p q : ℚ} (hp : 0 ≤ p) (h : p ≤ q) :
    trunc p ≤ trunc q := by
  rw [trunc_eq_floor hp, trunc_eq_floor (le_trans hp h)]
  exact Int.floor_le_floor h

/-- Unfolding of the source comparator order into an arithmetic statement. -/
theorem sortRel_iff (a b : Team) :
    sortRel a b ↔
      b.Points < a.Points ∨
        (a.Points = b.Points ∧ b.GoalDifference ≤ a.GoalDifference) := by
  unfold sortRel lessTeam
  by_cases h : b.Points = a.Points <;> simp [h] <;> omega

instance : IsTotal Team sortRel := by
  constructor
  intro a b
  rw [sortRel_iff, sortRel_iff]
  omega

instance : IsTrans Team sortRel := by
  constructor
  intro a b c hab hbc
  rw [sortRel_iff] at hab hbc ⊢
  omega

/-! ### C1: determinism of the match outcome sampler -/

/-- A concrete team with positive strength used to exercise the sampler. -/
def tSampler : Team :=
  { Name := "Sampler", BaseStrength := 50, CurrentStrength := 50,
    Form := List.replicate 5 "" }

/-- C1 counterexample: with positive strengths and the *same* incoming random
source state, two calls of `predictMatchResult` made at different wall-clock
instants return different goal pairs — the body reseeds the source from
`time.Now().UnixNano()` on every call, so the outcome is not a function of
the injected source state. -/
theorem c1_counterexample :
    0 < tSampler.CurrentStrength ∧
    (predictMatchResult tSampler tSampler 0 ⟨0⟩).1 ≠
      (predictMatchResult tSampler tSampler 437 ⟨0⟩).1 :=
  of_decide_eq_true (by with_unfolding_all rfl)

/-- C1 amended: `predictMatchResult` reseeds the global random source from the
current clock reading on every call; its result is a function of the two
teams and the clock reading alone, and is independent of the random source
state it was supplied with. -/
theorem c1_amended (team1 team2 : Team) (clock : Nat) (g g' : Rng) :
    predictMatchResult team1 team2 clock g =
      predictMatchResult team1 team2 clock g' := rfl

/-! ### C2: sort order of the displayable standings table -/

/-- Two teams tied on points and goal difference, distinguished only by goals
scored. -/
def tGfLow : Team :=
  { Name := "Low", Points := 10, GoalDifference := 2, GoalsFor := 1,
    GoalsAgainst := -1 }

/-- See `tGfLow`. -/
def tGfHigh : Team :=
  { Name := "High", Points := 10, GoalDifference := 2, GoalsFor := 5,
    GoalsAgainst := 3 }

/-- C2 counterexample: the in-memory display sort (`refreshDisplay`,
`PrintLeagueTable`) compares only points and goal difference, so a fully tied
pair may come out with goals-for ascending: the model sort returns the input
order `[tGfLow, tGfHigh]` (which is sorted for the source comparator), with
equal points, equal goal difference and the earlier team's `GoalsFor`
strictly smaller — contradicting the claimed `goalsFor` descending
tie-break. -/
theorem c2_counterexample :
    sortTeams [tGfLow, tGfHigh] = [tGfLow, tGfHigh] ∧
    List.Pairwise sortRel [tGfLow, tGfHigh] ∧
    tGfLow.Points = tGfHigh.Points ∧
    tGfLow.GoalDifference = tGfHigh.GoalDifference ∧
    tGfLow.GoalsFor < tGfHigh.GoalsFor := by decide

/-- C2 amended: the displayable standings table is a permutation of the team
list sorted with primary key points descending and tie-break goal difference
descending; no `goalsFor` tie-break is applied (teams tied on both keys may
appear in either order). -/
theorem c2_amended (ts : List Team) :
    List.Sorted sortRel (sortTeams ts) ∧ List.Perm (sortTeams ts) ts :=
  ⟨List.sorted_insertionSort sortRel ts, List.perm_insertionSort sortRel ts⟩

/-! ### C5: shape of the generated fixture list -/

/-- C5: the 4-team fixture list has 18 weeks of 2 matches; every team plays
exactly once per week; and in each of the three consecutive 6-week blocks
every ordered pair of distinct teams meets exactly once (hence every
unordered pair meets exactly twice, once with each side at home). -/
theorem c5 :
    generateFixtures.length = 18 ∧
    (∀ wk ∈ generateFixtures, wk.length = 2) ∧
    (∀ wk ∈ generateFixtures, ∀ i < 4,
      (wk.countP fun m => m.HomeTeam == i || m.AwayTeam == i) = 1) ∧
    (∀ b < 3, ∀ x < 4, ∀ y < 4, x ≠ y →
      ((((generateFixtures.drop (6 * b)).take 6).flatten).countP
        fun m => m.HomeTeam == x && m.AwayTeam == y) = 1) := by decide

/-- C5 witness: the first week has 2 matches, and in the first 6-week block
the pair (team 0 home, team 1 away) meets exactly once. -/
theorem c5_witness :
    (generateFixtures.getD 0 []).length = 2 ∧
    ((((generateFixtures.drop (6 * 0)).take 6).flatten).countP
      fun m => m.HomeTeam == 0 && m.AwayTeam == 1) = 1 :=
  ⟨c5.2.1 (generateFixtures.getD 0 []) (by decide),
   c5.2.2.2 0 (by decide) 0 (by decide) 1 (by decide) (by decide)⟩

/-! ### C6: week fields of the scheduler's output -/

/-- C6 counterexample: immediately after `generateFixtures` returns, every
match's `Week` field is still the zero value — in particular the first match
of week 1 carries `Week = 0`, not `1`.  The 1-based week numbers are only
assigned by the callers' numbering loop (`assignWeeks`). -/
theorem c6_counterexample :
    0 < (generateFixtures.getD 0 []).length ∧
    ((generateFixtures.getD 0 []).getD 0 default).Week = 0 := by decide

/-- C6 amended: `generateFixtures` itself leaves every `Week` field at 0; the
week-numbering loop run by `simulateNextWeek` / `simulateAllRemainingWeeks`
right after generation sets every match's `Week` field to its 1-based week
index. -/
theorem c6_amended :
    (assignWeeks generateFixtures).length = 18 ∧
    ∀ w < 18, ∀ m ∈ (assignWeeks generateFixtures).getD w [], m.Week = w + 1 := by
  decide

/-- C6 witness: the first match of the first week carries week number 1 after
the numbering loop. -/
theorem c6_witness :
    (((assignWeeks generateFixtures).getD 0 []).getD 0 default).Week = 0 + 1 :=
  c6_amended.2 0 (by decide)
    (((assignWeeks generateFixtures).getD 0 []).getD 0 default) (by decide)

/-! ### C7: team-state invariants -/

/-- The team-state invariant of the spec: consistent counters, and a current
strength inside the integer-truncated ±15% band around the base strength. -/
def TeamInv (t : Team) : Prop :=
  t.Played = t.Won + t.Drawn + t.Lost ∧
  t.GoalDifference = t.GoalsFor - t.GoalsAgainst ∧
  t.Points = 3 * t.Won + t.Drawn ∧
  trunc ((t.BaseStrength : ℚ) * (85 / 100)) ≤ t.CurrentStrength ∧
  t.CurrentStrength ≤ trunc ((t.BaseStrength : ℚ) * (115 / 100))

instance (t : Team) : Decidable (TeamInv t) := by
  unfold TeamInv; infer_instance

theorem updateTeamStrength_Played (t : Team) :
    t.updateTeamStrength.Played = t.Played := rfl

theorem updateTeamStrength_Won (t : Team) :
    t.updateTeamStrength.Won = t.Won := rfl

theorem updateTeamStrength_Drawn (t : Team) :
    t.updateTeamStrength.Drawn = t.Drawn := rfl

theorem updateTeamStrength_Lost (t : Team) :
    t.updateTeamStrength.Lost = t.Lost := rfl

theorem updateTeamStrength_GoalsFor (t : Team) :
    t.updateTeamStrength.GoalsFor = t.GoalsFor := rfl

theorem updateTeamStrength_GoalsAgainst (t : Team) :
    t.updateTeamStrength.GoalsAgainst = t.GoalsAgainst := rfl

theorem updateTeamStrength_GoalDifference (t : Team) :
    t.updateTeamStrength.GoalDifference = t.GoalDifference := rfl

theorem updateTeamStrength_Points (t : Team) :
    t.updateTeamStrength.Points = t.Points := rfl

theorem updateTeamStrength_BaseStrength (t : Team) :
    t.updateTeamStrength.BaseStrength = t.BaseStrength := rfl

theorem updateTeamStrength_Form (t : Team) :
    t.updateTeamStrength.Form = t.Form := rfl

/-- After `updateTeamStrength` the current strength lies in the truncated
±15% band (the clamp makes this unconditional once the band is nonempty,
which holds for a nonnegative base strength). -/
theorem updateTeamStrength_band (t : Team) (hb : 0 ≤ t.BaseStrength) :
    trunc ((t.BaseStrength : ℚ) * (85 / 100)) ≤
      t.updateTeamStrength.CurrentStrength ∧
    t.updateTeamStrength.CurrentStrength ≤
      trunc ((t.BaseStrength : ℚ) * (115 / 100)) := by
  have hb' : (0 : ℚ) ≤ (t.BaseStrength : ℚ) := by exact_mod_cast hb
  have hband : trunc ((t.BaseStrength : ℚ) * (85 / 100)) ≤
      trunc ((t.BaseStrength : ℚ) * (115 / 100)) := by
    refine trunc_le_trunc (by positivity) ?_
    have h85 : (85 / 100 : ℚ) ≤ 115 / 100 := by norm_num
    exact mul_le_mul_of_nonneg_left h85 hb'
  unfold Team.updateTeamStrength
  dsimp only
  split_ifs <;> omega

/-- `TeamInv` holds after a strength recomputation whenever the counter
equations hold. -/
theorem TeamInv_updateTeamStrength (t : Team) (hb : 0 ≤ t.BaseStrength)
    (h1 : t.Played = t.Won + t.Drawn + t.Lost)
    (h2 : t.GoalDifference = t.GoalsFor - t.GoalsAgainst)
    (h3 : t.Points = 3 * t.Won + t.Drawn) :
    TeamInv t.updateTeamStrength := by
  refine ⟨?_, ?_, ?_, ?_, ?_⟩
  · rw [updateTeamStrength_Played, updateTeamStrength_Won,
      updateTeamStrength_Drawn, updateTeamStrength_Lost]; exact h1
  · rw [updateTeamStrength_GoalDifference, updateTeamStrength_GoalsFor,
      updateTeamStrength_GoalsAgainst]; exact h2
  · rw [updateTeamStrength_Points, updateTeamStrength_Won,
      updateTeamStrength_Drawn]; exact h3
  · rw [updateTeamStrength_BaseStrength]; exact (updateTeamStrength_band t hb).1
  · rw [updateTeamStrength_BaseStrength]; exact (updateTeamStrength_band t hb).2

/-- C7: each team-state operation — applying a match result, resetting stats,
reversing stats — preserves the state invariant: consistent
played/won/drawn/lost, goal difference, points, and a current strength within
the truncated ±15% band of the (positive) base strength. -/
theorem c7 (t : Team) (gf ga : Int) (hb : 0 < t.BaseStrength)
    (hinv : TeamInv t) :
    TeamInv (t.UpdateTeamStats gf ga) ∧ TeamInv t.ResetTeamStats ∧
      TeamInv (t.ReverseTeamStats gf ga) := by
  obtain ⟨h1, h2, h3, h4, h5⟩ := hinv
  refine ⟨?_, ?_, ?_⟩
  · unfold Team.UpdateTeamStats
    dsimp only
    split_ifs with hgt heq <;>
      · refine TeamInv_updateTeamStrength _ (by simpa using le_of_lt hb) ?_ ?_ ?_ <;>
          simp <;> omega
  · exact ⟨by simp [Team.ResetTeamStats], by simp [Team.ResetTeamStats],
      by simp [Team.ResetTeamStats],
      by simpa [Team.ResetTeamStats] using h4,
      by simpa [Team.ResetTeamStats] using h5⟩
  · unfold Team.ReverseTeamStats
    dsimp only
    split_ifs with hgt heq <;>
      exact ⟨by dsimp only; try omega, by dsimp only; try omega,
        by dsimp only; try omega, by simpa using h4, by simpa using h5⟩

/-- A concrete team state satisfying the invariant. -/
def tInv : Team :=
  { Name := "Inv", BaseStrength := 50, CurrentStrength := 50,
    Form := List.replicate 5 "" }

/-- C7 witness: the invariant statement at a concrete team and score. -/
theorem c7_witness :
    TeamInv (tInv.UpdateTeamStats 2 1) ∧ TeamInv tInv.ResetTeamStats ∧
      TeamInv (tInv.ReverseTeamStats 2 1) :=
  c7 tInv 2 1 (by decide) (of_decide_eq_true (by with_unfolding_all rfl))

/-! ### C10: the length-5 form window and the slice precondition -/

/-- Go struct `PremierLeagueTeam` (main.go). -/
structure PremierLeagueTeam where
  ID : Nat
  Name : String
  ShortName : String
  BaseStrength : Int
  Form : String
  Position : Nat
deriving Repr, DecidableEq, Inhabited

/-- Go `getMockPremierLeagueTeams` (main.go). -/
def getMockPremierLeagueTeams : List PremierLeagueTeam :=
  [{ ID := 1, Name := "Manchester City", ShortName := "MCI", BaseStrength := 85,
     Form := "", Position := 1 },
   { ID := 2, Name := "Arsenal", ShortName := "ARS", BaseStrength := 82,
     Form := "", Position := 2 },
   { ID := 3, Name := "Liverpool", ShortName := "LIV", BaseStrength := 83,
     Form := "", Position := 3 },
   { ID := 4, Name := "Manchester United", ShortName := "MUN",
     BaseStrength := 80, Form := "", Position := 4 },
   { ID := 5, Name := "Tottenham", ShortName := "TOT", BaseStrength := 79,
     Form := "", Position := 5 },
   { ID := 6, Name := "Newcastle", ShortName := "NEW", BaseStrength := 78,
     Form := "", Position := 6 },
   { ID := 7, Name := "Chelsea", ShortName := "CHE", BaseStrength := 77,
     Form := "", Position := 7 },
   { ID := 8, Name := "Aston Villa", ShortName := "AVL", BaseStrength := 76,
     Form := "", Position := 8 },
   { ID := 9, Name := "Brighton", ShortName := "BHA", BaseStrength := 75,
     Form := "", Position := 9 },
   { ID := 10, Name := "West Ham", ShortName := "WHU", BaseStrength := 74,
     Form := "", Position := 10 }]

/-- The team record `NewLeague` (main.go) builds from a selected mock team:
base and current strength from the catalogue, and a 5-entry form slice filled
from the (empty) form string. -/
def newLeagueTeam (p : PremierLeagueTeam) : Team :=
  { Name := p.Name, BaseStrength := p.BaseStrength,
    CurrentStrength := p.BaseStrength, Form := formOfString p.Form }

/-- Writing single characters at fixed indices never changes a list's
length. -/
theorem foldl_set_length (l : List (Nat × Char)) (init : List String) :
    (l.foldl (fun form p => form.set p.1 (String.mk [p.2])) init).length =
      init.length := by
  induction l generalizing init with
  | nil => rfl
  | cons a l ih => rw [List.foldl_cons, ih]; simp

/-- Guarded variant for `parseFormString`. -/
theorem foldl_set_guard_length (l : List (Nat × Char)) (init : List String) :
    (l.foldl
      (fun form p => if p.1 < 5 then form.set p.1 (String.mk [p.2]) else form)
      init).length = init.length := by
  induction l generalizing init with
  | nil => rfl
  | cons a l ih => rw [List.foldl_cons, ih]; split_ifs <;> simp

/-- C10: the form window is a 5-entry list at all times — `NewLeague` and
`parseFormString` build 5-entry forms (padded with empty strings), a match
update turns a 5-entry form into a 5-entry form, resetting and reversing do
not touch the form — and applying a match result is defined only for a form
of length at least 4: the Go slice `t.Form[:4]` taken by `UpdateTeamStats` is
out of range for any shorter form. -/
theorem c10 :
    (∀ s, (formOfString s).length = 5) ∧
    (∀ s, (parseFormString s).length = 5) ∧
    (∀ t : Team, ∀ gf ga : Int, t.Form.length = 5 →
      (t.UpdateTeamStats gf ga).Form.length = 5 ∧
      t.UpdateTeamStatsChecked gf ga = some (t.UpdateTeamStats gf ga)) ∧
    (∀ t : Team, ∀ gf ga : Int, t.Form.length < 4 →
      t.UpdateTeamStatsChecked gf ga = none) ∧
    (∀ t : Team, t.ResetTeamStats.Form = t.Form) ∧
    (∀ t : Team, ∀ gf ga : Int, (t.ReverseTeamStats gf ga).Form = t.Form) := by
  refine ⟨?_, ?_, ?_, ?_, ?_, ?_⟩
  · intro s
    unfold formOfString
    rw [foldl_set_length]
    simp
  · intro s
    unfold parseFormString
    split_ifs
    · simp
    · rw [foldl_set_guard_length]; simp
  · intro t gf ga h5
    constructor
    · unfold Team.UpdateTeamStats
      dsimp only
      split_ifs <;> simp [updateTeamStrength_Form, h5]
    · unfold Team.UpdateTeamStatsChecked
      rw [if_pos (by omega)]
  · intro t gf ga hshort
    unfold Team.UpdateTeamStatsChecked
    rw [if_neg (by omega)]
  · intro t; rfl
  · intro t gf ga
    unfold Team.ReverseTeamStats
    dsimp only
    split_ifs <;> rfl

/-- A team whose form window is too short for a match update. -/
def tShortForm : Team := { Name := "Short", Form := ["W", "L"] }

/-- C10 witness: the parts of `c10` with hypotheses, at a concrete mock team
and score. -/
theorem c10_witness :
    ((newLeagueTeam (getMockPremierLeagueTeams.getD 0 default)).UpdateTeamStats
        2 1).Form.length = 5 ∧
    tShortForm.UpdateTeamStatsChecked 2 1 = none :=
  ⟨(c10.2.2.1 (newLeagueTeam (getMockPremierLeagueTeams.getD 0 default)) 2 1
      (by decide)).1,
   c10.2.2.2.1 tShortForm 2 1 (by decide)⟩

/-! ### C4: idempotence of the standings replay -/

/-- The effect of `UpdateTeamStats` on the counter projection (the counters
are updated independently of form and strength). -/
def statsUpdate (s : TeamStats) (gf ga : Int) : TeamStats :=
  let s := { s with GoalsFor := s.GoalsFor + gf,
                    GoalsAgainst := s.GoalsAgainst + ga }
  let s := { s with GoalDifference := s.GoalsFor - s.GoalsAgainst }
  let s :=
    if gf > ga then { s with Won := s.Won + 1, Points := s.Points + 3 }
    else if gf = ga then { s with Drawn := s.Drawn + 1, Points := s.Points + 1 }
    else { s with Lost := s.Lost + 1 }
  { s with Played := s.Won + s.Drawn + s.Lost }

theorem stats_UpdateTeamStats (t : Team) (gf ga : Int) :
    (t.UpdateTeamStats gf ga).stats = statsUpdate t.stats gf ga := by
  unfold Team.UpdateTeamStats statsUpdate Team.stats
  dsimp only
  split_ifs <;> rfl

theorem stats_ResetTeamStats (t : Team) :
    t.ResetTeamStats.stats = ⟨0, 0, 0, 0, 0, 0, 0, 0⟩ := rfl

/-- `applyAt` commutes with mapping a projection that commutes with the
update function. -/
theorem map_applyAt {α β : Type} (g : α → β) (f : α → α) (F : β → β)
    (hc : ∀ a, g (f a) = F (g a)) (ts : List α) (i : Nat) :
    (applyAt ts i f).map g = applyAt (ts.map g) i F := by
  unfold applyAt
  cases h : ts[i]? with
  | none =>
    rw [List.getElem?_map, h]
    rfl
  | some t =>
    rw [List.getElem?_map, h, List.map_set, hc]
    rfl

theorem length_applyAt {α : Type} (ts : List α) (i : Nat) (f : α → α) :
    (applyAt ts i f).length = ts.length := by
  unfold applyAt
  cases h : ts[i]? <;> simp

/-- The counter-level replay of one match. -/
def playMatchS (ss : List TeamStats) (m : Match) : List TeamStats :=
  if m.IsPlayed || m.IsFixed then
    let ss := applyAt ss m.HomeTeam fun s => statsUpdate s m.HomeGoals m.AwayGoals
    applyAt ss m.AwayTeam fun s => statsUpdate s m.AwayGoals m.HomeGoals
  else ss

/-- The counter-level replay of a list of weeks. -/
def replayWeeksS (weeks : List (List Match)) (ss : List TeamStats) :
    List TeamStats :=
  weeks.foldl (fun ss wk => wk.foldl playMatchS ss) ss

theorem map_stats_playMatchOn (ts : List Team) (m : Match) :
    (playMatchOn ts m).map Team.stats = playMatchS (ts.map Team.stats) m := by
  unfold playMatchOn playMatchS
  split_ifs with h
  · dsimp only
    rw [map_applyAt Team.stats
        (fun t => t.UpdateTeamStats m.AwayGoals m.HomeGoals)
        (fun s => statsUpdate s m.AwayGoals m.HomeGoals)
        (fun a => stats_UpdateTeamStats a m.AwayGoals m.HomeGoals) _ m.AwayTeam,
      map_applyAt Team.stats
        (fun t => t.UpdateTeamStats m.HomeGoals m.AwayGoals)
        (fun s => statsUpdate s m.HomeGoals m.AwayGoals)
        (fun a => stats_UpdateTeamStats a m.HomeGoals m.AwayGoals) ts m.HomeTeam]
  · rfl

theorem length_playMatchS (ss : List TeamStats) (m : Match) :
    (playMatchS ss m).length = ss.length := by
  unfold playMatchS
  split_ifs
  · rw [length_applyAt, length_applyAt]
  · rfl

theorem map_stats_replayWeeks (weeks : List (List Match)) (ts : List Team) :
    (replayWeeks weeks ts).map Team.stats =
      replayWeeksS weeks (ts.map Team.stats) := by
  unfold replayWeeks replayWeeksS
  induction weeks generalizing ts with
  | nil => rfl
  | cons wk weeks ih =>
    rw [List.foldl_cons, List.foldl_cons, ih]
    congr 1
    induction wk generalizing ts with
    | nil => rfl
    | cons m wk ihm =>
      rw [List.foldl_cons, List.foldl_cons, ihm, map_stats_playMatchOn]

theorem length_replayWeeksS (weeks : List (List Match)) (ss : List TeamStats) :
    (replayWeeksS weeks ss).length = ss.length := by
  unfold replayWeeksS
  induction weeks generalizing ss with
  | nil => rfl
  | cons wk weeks ih =>
    rw [List.foldl_cons, ih]
    induction wk generalizing ss with
    | nil => rfl
    | cons m wk ihm => rw [List.foldl_cons, ihm, length_playMatchS]

theorem map_stats_reset (ts : List Team) :
    (ts.map Team.ResetTeamStats).map Team.stats =
      List.replicate ts.length (⟨0, 0, 0, 0, 0, 0, 0, 0⟩ : TeamStats) := by
  rw [List.map_map]
  have h : Team.stats ∘ Team.ResetTeamStats =
      Function.const Team (⟨0, 0, 0, 0, 0, 0, 0, 0⟩ : TeamStats) := by
    funext t; exact stats_ResetTeamStats t
  rw [h, List.map_const]

/-- The counters produced by one full replay depend only on the fixture list,
the week counter, and the number of teams. -/
theorem stats_recalculateAllStats (l : League) :
    l.recalculateAllStats.Teams.map Team.stats =
      replayWeeksS (l.Fixtures.take l.Week)
        (List.replicate l.Teams.length (⟨0, 0, 0, 0, 0, 0, 0, 0⟩ : TeamStats)) := by
  unfold League.recalculateAllStats
  dsimp only
  rw [map_stats_replayWeeks, map_stats_reset]

theorem length_recalculateAllStats (l : League) :
    l.recalculateAllStats.Teams.length = l.Teams.length := by
  have h1 : l.recalculateAllStats.Teams.length =
      (l.recalculateAllStats.Teams.map Team.stats).length := by simp
  rw [h1, stats_recalculateAllStats, length_replayWeeksS, List.length_replicate]

/-- C4: the standings replay is idempotent on the cumulative team counters:
running `recalculateAllStats` twice over an unchanged match list produces
exactly the same played/won/drawn/lost/goals/points counters for every team
as running it once (the counters are rebuilt from the match list alone,
starting from the reset state). -/
theorem c4 (l : League) :
    l.recalculateAllStats.recalculateAllStats.Teams.map Team.stats =
      l.recalculateAllStats.Teams.map Team.stats := by
  have hfix : l.recalculateAllStats.Fixtures = l.Fixtures := rfl
  have hwk : l.recalculateAllStats.Week = l.Week := rfl
  rw [stats_recalculateAllStats, stats_recalculateAllStats, hfix, hwk,
    length_recalculateAllStats]

/-! ### C3: mathematical certainty branch -/

theorem alGet_alSet_self {α : Type} (m : List (String × α)) (k : String)
    (v d : α) : alGet (alSet m k v) k d = v := by
  induction m with
  | nil => simp [alSet, alGet]
  | cons p rest ih =>
    unfold alSet
    split_ifs with h
    · simp [alGet]
    · simpa [alGet, h] using ih

theorem alGet_alSet_ne {α : Type} (m : List (String × α)) {k k' : String}
    (hne : k ≠ k') (v : α) (d : α) :
    alGet (alSet m k v) k' d = alGet m k' d := by
  induction m with
  | nil => simp [alSet, alGet, hne]
  | cons p rest ih =>
    unfold alSet
    split_ifs with h
    · subst h
      simp [alGet, hne]
    · unfold alGet
      split_ifs with h2
      · rfl
      · exact ih

theorem buildMap_cons {α : Type} (f : Team → α) (s : Team) (ts : List Team)
    (m : List (String × α)) :
    buildMap f (s :: ts) m = buildMap f ts (alSet m s.Name (f s)) := rfl

theorem alGet_buildMap_not_mem {α : Type} (f : Team → α) (ts : List Team)
    (m : List (String × α)) (k : String) (d : α)
    (hk : k ∉ ts.map Team.Name) :
    alGet (buildMap f ts m) k d = alGet m k d := by
  induction ts generalizing m with
  | nil => rfl
  | cons s ts ih =>
    have hk2 : k ∉ ts.map Team.Name := fun hmem => hk (by simp [hmem])
    have hks : s.Name ≠ k := fun heq => hk (by simp [heq])
    rw [buildMap_cons, ih (alSet m s.Name (f s)) hk2, alGet_alSet_ne m hks]

theorem alGet_buildMap_mem {α : Type} (f : Team → α) (ts : List Team)
    (m : List (String × α)) (t : Team) (d : α) (ht : t ∈ ts)
    (hnd : (ts.map Team.Name).Nodup) :
    alGet (buildMap f ts m) t.Name d = f t := by
  induction ts generalizing m with
  | nil => cases ht
  | cons s ts ih =>
    rw [List.map_cons, List.nodup_cons] at hnd
    rw [buildMap_cons]
    rcases List.mem_cons.mp ht with rfl | hmem
    · rw [alGet_buildMap_not_mem f ts _ _ _ hnd.1, alGet_alSet_self]
    · exact ih (alSet m s.Name (f s)) hmem hnd.2

/-- With pairwise distinct names and the points-leading team listed first,
the `leaderUnreachable` flag of `ChampionshipProbabilities` is set exactly
when the leader's points exceed every other team's maximum achievable
points. -/
theorem leaderUnreachableB_true (l : League) (leader : Team) (rest : List Team)
    (hteams : l.Teams = leader :: rest)
    (hnd : (l.Teams.map Team.Name).Nodup)
    (hcert : ∀ t ∈ rest, t.Points + (18 - t.Played) * 3 < leader.Points) :
    leaderUnreachableB l = true := by
  unfold leaderUnreachableB
  rw [hteams]
  rw [List.all_eq_true]
  intro t ht
  have hcur : alGet l.currentPointsMap leader.Name 0 = leader.Points := by
    unfold League.currentPointsMap
    exact alGet_buildMap_mem _ l.Teams [] leader 0
      (by rw [hteams]; exact List.mem_cons_self _ _) hnd
  have hmax : alGet l.maxPointsMap t.Name 0 =
      t.Points + (18 - t.Played) * 3 := by
    unfold League.maxPointsMap
    exact alGet_buildMap_mem _ l.Teams [] t 0
      (by rw [hteams]; exact List.mem_cons_of_mem _ ht) hnd
  have hlt := hcert t ht
  simp only [hcur, hmax, Bool.not_eq_eq_eq_not, Bool.not_true,
    decide_eq_false_iff_not, not_le]
  omega

/-- C3 amended: whenever the season is not complete, the team names are
pairwise distinct, the points-leading team appears *first* in the league's
team list (as the code's `leader := l.Teams[0]` assumes), and its points
exceed every other team's `maxAchievable = points + 3·(18 − played)`, the
championship probability engine returns 100% for that leader and 0% for every
other team, regardless of the requested number of trials. -/
theorem c3_amended (l : League) (leader : Team) (rest : List Team)
    (sims : Nat) (clk : Nat → Nat) (st : RandState)
    (hteams : l.Teams = leader :: rest)
    (hwk : ¬ 18 < l.Week)
    (hnd : (l.Teams.map Team.Name).Nodup)
    (hcert : ∀ t ∈ rest, t.Points + (18 - t.Played) * 3 < leader.Points) :
    alGet (l.ChampionshipProbabilities sims clk st).1 leader.Name 0 = 100 ∧
    ∀ t ∈ rest, alGet (l.ChampionshipProbabilities sims clk st).1 t.Name 0 = 0 := by
  have hlu := leaderUnreachableB_true l leader rest hteams hnd hcert
  have hred : (l.ChampionshipProbabilities sims clk st).1 =
      certaintyCounts (leader :: rest) leader := by
    unfold League.ChampionshipProbabilities
    rw [hteams]
    dsimp only
    rw [if_neg hwk, if_pos hlu]
  have hnd' : ((leader :: rest).map Team.Name).Nodup := hteams ▸ hnd
  have hleadnot : leader.Name ∉ rest.map Team.Name := by
    rw [List.map_cons, List.nodup_cons] at hnd'
    exact hnd'.1
  constructor
  · rw [hred]
    unfold certaintyCounts
    rw [alGet_buildMap_mem _ _ [] leader 0 (List.mem_cons_self _ _) hnd']
    simp
  · intro t ht
    rw [hred]
    unfold certaintyCounts
    rw [alGet_buildMap_mem _ _ [] t 0 (List.mem_cons_of_mem _ ht) hnd']
    have hne : t.Name ≠ leader.Name := by
      intro heq
      exact hleadnot (heq ▸ List.mem_map_of_mem Team.Name ht)
    simp [hne]

/-- Teams for exercising the certainty branch. -/
def tCertA : Team := { Name := "A", Points := 100, Played := 18 }

/-- See `tCertA`. -/
def tCertB : Team := { Name := "B" }

/-- See `tCertA`. -/
def tCertC : Team := { Name := "C" }

/-- See `tCertA`. -/
def tCertD : Team := { Name := "D" }

/-- A league in which the points leader sits at index 1, not index 0. -/
def lCert : League :=
  { Teams := [tCertB, tCertA, tCertC, tCertD], Week := 1, Fixtures := [] }

/-- C3 counterexample: in `lCert` the season is not complete and team A's
points (100) exceed every other team's maximum achievable points (54), yet —
because A is not the *first* element of the team list, while the code takes
`leader := l.Teams[0]` — the engine falls through to the Monte Carlo branch
and (with 0 requested trials, which the claim says must not matter) returns
0% for A rather than 100%. -/
theorem c3_counterexample :
    ¬ 18 < lCert.Week ∧
    tCertB.Points + (18 - tCertB.Played) * 3 < tCertA.Points ∧
    tCertC.Points + (18 - tCertC.Played) * 3 < tCertA.Points ∧
    tCertD.Points + (18 - tCertD.Played) * 3 < tCertA.Points ∧
    tCertA.Points > tCertB.Points ∧ tCertA.Points > tCertC.Points ∧
    tCertA.Points > tCertD.Points ∧
    alGet (lCert.ChampionshipProbabilities 0 (fun _ => 0) (⟨0⟩, 0)).1
      tCertA.Name 0 = 0 ∧
    ((0 : ℚ) ≠ 100) :=
  of_decide_eq_true (by with_unfolding_all rfl)

/-- The league of `lCert` with the leader listed first. -/
def lCertW : League :=
  { Teams := [tCertA, tCertB, tCertC, tCertD], Week := 1, Fixtures := [] }

/-- C3 witness: the amended statement at a concrete league whose leader is
listed first, with 7 requested trials. -/
theorem c3_witness :
    alGet (lCertW.ChampionshipProbabilities 7 (fun _ => 0) (⟨0⟩, 0)).1
      tCertA.Name 0 = 100 :=
  (c3_amended lCertW tCertA [tCertB, tCertC, tCertD] 7 (fun _ => 0) (⟨0⟩, 0)
    rfl (by decide) (by decide) (by decide)).1

/-! ### C8: the probability engine leaves the live league unchanged -/

/-- C8: `ChampionshipProbabilities` never mutates the live season state: in
every branch (including the Monte Carlo branch, which plays its trials on
deep copies of the teams) the league — every team's stats, form and
strengths, and every match's goals and flags — returned alongside the
percentages is the league that was passed in. -/
theorem c8 (l : League) (sims : Nat) (clk : Nat → Nat) (st : RandState) :
    (l.ChampionshipProbabilities sims clk st).2.1 = l := by
  unfold League.ChampionshipProbabilities
  cases h : l.Teams with
  | nil => rfl
  | cons leader rest =>
    dsimp only
    split_ifs <;> rfl

/-! ### C9: Monte Carlo percentages sum to exactly 100 -/

theorem mapSum_alSet (m : List (String × ℚ)) (k : String) (v : ℚ) :
    mapSum (alSet m k v) = mapSum m + v - alGet m k 0 := by
  induction m with
  | nil => simp [alSet, alGet, mapSum]
  | cons p rest ih =>
    simp only [alSet, alGet]
    split_ifs with h
    · simp only [mapSum, List.map_cons, List.sum_cons]
      ring
    · simp only [mapSum, List.map_cons, List.sum_cons] at ih ⊢
      rw [ih]
      ring

theorem mapSum_credit (ns : List String) (q : ℚ) (c : List (String × ℚ)) :
    mapSum (ns.foldl (fun c name => alSet c name (alGet c name 0 + q)) c) =
      mapSum c + ns.length * q := by
  induction ns generalizing c with
  | nil => simp
  | cons n ns ih =>
    rw [List.foldl_cons, ih, mapSum_alSet]
    simp only [List.length_cons]
    push_cast
    ring

/-- Every valid trial distributes exactly one unit of credit among its tied
champions. -/
theorem mapSum_creditChampions (counts : List (String × ℚ))
    (champs : List String) (h : champs ≠ []) :
    mapSum (creditChampions counts champs) = mapSum counts + 1 := by
  unfold creditChampions
  rw [mapSum_credit]
  have hlen : (champs.length : ℚ) ≠ 0 := by
    have h0 : champs.length ≠ 0 := fun hl => h (List.length_eq_zero.mp hl)
    exact_mod_cast h0
  rw [mul_one_div_cancel hlen]

/-- Invariant of the Monte Carlo loop: the total credit in the counts map
always equals the number of valid trials so far. -/
theorem monteCarloRun_sum (l : League) (sims : Nat) (clk : Nat → Nat)
    (st : RandState) :
    mapSum (monteCarloRun l sims clk st).1 =
      ((monteCarloRun l sims clk st).2.1 : ℚ) := by
  unfold monteCarloRun
  have main : ∀ (xs : List Nat) (acc : List (String × ℚ) × Nat × RandState),
      mapSum acc.1 = (acc.2.1 : ℚ) →
      mapSum (xs.foldl (mcStep l clk) acc).1 =
        ((xs.foldl (mcStep l clk) acc).2.1 : ℚ) := by
    intro xs
    induction xs with
    | nil => intro acc h; exact h
    | cons x xs ih =>
      intro acc h
      rw [List.foldl_cons]
      refine ih _ ?_
      unfold mcStep
      dsimp only
      split_ifs with hc
      · exact h
      · rw [mapSum_creditChampions _ _ hc]
        push_cast
        rw [h]
  exact main _ _ (by simp [mapSum])

theorem mapSum_map_normalize (m : List (String × ℚ)) (c : ℚ) :
    mapSum (m.map fun p => (p.1, p.2 / c * 100)) = mapSum m / c * 100 := by
  induction m with
  | nil => simp [mapSum]
  | cons p rest ih =>
    simp only [mapSum, List.map_cons, List.sum_cons] at ih ⊢
    rw [ih]
    ring

/-- C9: whenever the engine reaches the Monte Carlo branch and at least one
trial is valid, the returned per-team percentages sum to exactly 100 in the
exact rational model: each valid trial contributes exactly one unit of credit
and the final normalization divides by the valid-trial count. -/
theorem c9 (l : League) (leader : Team) (rest : List Team)
    (sims : Nat) (clk : Nat → Nat) (st : RandState)
    (hteams : l.Teams = leader :: rest)
    (hwk : ¬ 18 < l.Week)
    (hlu : leaderUnreachableB l = false)
    (hw0 : l.Week ≠ 0)
    (hvalid : 1 ≤ (monteCarloRun l sims clk st).2.1) :
    mapSum (l.ChampionshipProbabilities sims clk st).1 = 100 := by
  have hred : (l.ChampionshipProbabilities sims clk st).1 =
      normalizeCounts l (monteCarloRun l sims clk st).1
        (monteCarloRun l sims clk st).2.1 := by
    unfold League.ChampionshipProbabilities
    rw [hteams]
    dsimp only
    rw [if_neg hwk, if_neg (by simp [hlu]), if_neg hw0]
  rw [hred]
  unfold normalizeCounts
  rw [if_pos (by omega), mapSum_map_normalize, monteCarloRun_sum]
  have hpos : 0 < (monteCarloRun l sims clk st).2.1 := by omega
  have hne : ((monteCarloRun l sims clk st).2.1 : ℚ) ≠ 0 := by
    exact_mod_cast hpos.ne'
  field_simp

/-- A team for a concrete Monte Carlo run. -/
def tMcA : Team :=
  { Name := "McA", BaseStrength := 50, CurrentStrength := 50,
    Form := List.replicate 5 "" }

/-- See `tMcA`. -/
def tMcB : Team :=
  { Name := "McB", BaseStrength := 50, CurrentStrength := 50,
    Form := List.replicate 5 "" }

/-- A two-team league in week 1 with a single remaining fixture, reaching the
Monte Carlo branch. -/
def lMc : League :=
  { Teams := [tMcA, tMcB], Week := 1,
    Fixtures := [[{ HomeTeam := 0, AwayTeam := 1 }]] }

/-- C9 witness: a concrete Monte Carlo run (one requested trial, one
remaining fixture) whose percentages sum to exactly 100. -/
theorem c9_witness :
    mapSum (lMc.ChampionshipProbabilities 1 (fun _ => 0) (⟨0⟩, 0)).1 = 100 :=
  c9 lMc tMcA [tMcB] 1 (fun _ => 0) (⟨0⟩, 0) rfl (by decide)
    (of_decide_eq_true (by with_unfolding_all rfl)) (by decide)
    (of_decide_eq_true (by with_unfolding_all rfl))
